import Mathlib

/-!
# N-body simulation: the wiring done by `main` and the Barnes-Hut octree invariant

The first part embeds `src/main.cpp`: the two `switch` statements of `main`
(initial layout, solver version) and the objects `main` constructs, recorded as a
trace of events.  Constructor calls are kept as the class named at the call site
together with the list of argument values in call order.  The inputs of a run are the
parsed arguments and the answer of the file system to `getFileDir()`, which the three GPU
cases call and which throws when the source file is not there.

The second part models the octree builder, whose code is not among the sources, from
its description, over exact rational arithmetic.
-/

namespace NBody

/-! ## Values read from `ArgumentsParser` -/

/-- The enumerators of `InitializationType` that `main` names in its first `switch`;
`other raw` stands for any further value of the enumeration (the `default:` label). -/
inductive InitializationType where
  | GALAXY
  | CUBE
  | LAGRANGE
  | SPHERE
  | BALL
  | CUBE_SURFACE
  | SYSTEM_FILE
  | other (raw : Nat)
  deriving DecidableEq, Repr

/-- The enumerators of `Version` that `main` names in its second `switch`;
`other raw` stands for any further value of the enumeration (no `case` matches it). -/
inductive Version where
  | PP_CPU_SEQUENTIAL
  | PP_CPU_PARALLEL
  | PP_GPU_PARALLEL
  | PP_GPU_OPTIMIZED
  | BARNES_HUT_CPU_SEQ
  | BARNES_HUT_CPU_PARALLEL
  | BARNES_HUT_GPU_PARALLEL
  | other (raw : Nat)
  deriving DecidableEq, Repr

/-- The parsed arguments, `ArgumentsParser args(argc, argv)`: one field per getter that
`main` calls.  The getters are taken to be pure (each call returns the same value).
Floating-point values are carried as rationals; `main` never computes with them. -/
structure ArgumentsParser where
  getInitializationType : InitializationType
  getVersion : Version
  getNumParticles : Nat
  getTimeStep : ℚ
  getSquaredSoftening : ℚ
  getFilePath : String
  deriving DecidableEq, Repr

/-! ## Constructor calls -/

/-- An argument value at a constructor call site. -/
inductive CtorArg where
  | scalar (x : ℚ)
  | count (n : Nat)
  | path (s : String)
  deriving DecidableEq, Repr

/-- The initializer classes instantiated by `main`. -/
inductive InitializerClass where
  | ParticleSystemGalaxyInitializer
  | ParticleSystemCubeInitializer
  | ParticleSystemLagrange
  | ParticleSystemSphere
  | ParticleSystemBall
  | ParticleSystemCubeSurface
  | ParticleSystemFile
  deriving DecidableEq, Repr

/-- The solver classes instantiated by `main`. -/
inductive SolverClass where
  | ParticleSolverCPUSequential
  | ParticleSolverCPUParallel
  | ParticleSolverGPU
  | ParticleSolverBHutCPUSeq
  | ParticleSolverBHutCPUParallel
  | ParticleSolverBHutGPU
  deriving DecidableEq, Repr

/-- The call `std::make_unique<cls>(args...)` for an initializer. -/
structure ParticleSystemInitializer where
  cls : InitializerClass
  args : List CtorArg
  deriving DecidableEq, Repr

/-- The call `std::make_unique<cls>(args...)` for a solver. -/
structure ParticleSolver where
  cls : SolverClass
  args : List CtorArg
  deriving DecidableEq, Repr

/-- The call `std::make_shared<ParticleSimulation>(initializer, solver, worldDimensions,
windowDim)`.  The initializer is a moved `unique_ptr`, which may be null. -/
structure ParticleSimulation where
  particleSystemInitializer : Option ParticleSystemInitializer
  solver : ParticleSolver
  worldDimensions : ℚ × ℚ × ℚ
  windowDim : ℚ × ℚ
  deriving DecidableEq, Repr

/-- What `main` does that is visible from outside, in program order.  `terminate` is the
end of the process by an exception that leaves `main` uncaught (`main` has no `try`). -/
inductive Event where
  | constructWindow (windowDim : ℚ × ℚ) (title : String)
  | constructRenderLoop (window : ℚ × ℚ) (flag1 flag2 : Bool)
  | makeInitializer (i : ParticleSystemInitializer)
  | makeSolver (s : ParticleSolver)
  | makeParticleSimulation (sim : ParticleSimulation)
  | constructWindowInputManager (sim : Option ParticleSimulation)
  | runLoop (sim : Option ParticleSimulation)
  | exit (status : Int)
  | terminate
  deriving DecidableEq, Repr

/-- The value of the `<cstdlib>` constant `EXIT_FAILURE`. -/
def EXIT_FAILURE : Int := 1

/-- Lines 27-30, `getFileDir()`.  `std::filesystem::canonical(std::filesystem::path(__FILE__))`
asks the file system for the source file: when the file is not there it throws a
`filesystem_error` (`fileSystem = none`, the result is `none`); otherwise
`fileSystem = some parent` carries `.parent_path().string()` of the canonical path and the
function returns it followed by a slash.  The file system is taken not to change during a
run, so every call of one run has the same outcome. -/
def getFileDir (fileSystem : Option String) : Option String :=
  match fileSystem with
  | none => none
  | some parent => some (parent ++ "/")

/-- Line 38, `glm::vec3 worldDimensions(5.f)`. -/
def worldDimensions : ℚ × ℚ × ℚ := (5, 5, 5)

/-- Line 41, `glm::vec2 windowDim(1300, 750)`. -/
def windowDim : ℚ × ℚ := (1300, 750)

/-- Lines 50-74, the `switch` on `args.getInitializationType()`: the initializer that is
made, or the status passed to `exit`. -/
def initializerSwitch (args : ArgumentsParser) (filePath : String) :
    Except Int ParticleSystemInitializer :=
  match args.getInitializationType with
  | .GALAXY =>
      .ok ⟨.ParticleSystemGalaxyInitializer, [.count args.getNumParticles]⟩
  | .CUBE =>
      .ok ⟨.ParticleSystemCubeInitializer, [.count args.getNumParticles]⟩
  | .LAGRANGE =>
      .ok ⟨.ParticleSystemLagrange, []⟩
  | .SPHERE =>
      .ok ⟨.ParticleSystemSphere, [.count args.getNumParticles]⟩
  | .BALL =>
      .ok ⟨.ParticleSystemBall, [.count args.getNumParticles]⟩
  | .CUBE_SURFACE =>
      .ok ⟨.ParticleSystemCubeSurface, [.count args.getNumParticles]⟩
  | .SYSTEM_FILE =>
      .ok ⟨.ParticleSystemFile, [.path filePath]⟩
  | .other _ =>
      .error EXIT_FAILURE

/-- The assignment that every `case` of the version `switch` ends with,
`particleSimulation = std::make_shared<ParticleSimulation>(std::move(particleSystemInitializer),
std::move(solver), worldDimensions, windowDim)`: the events of the case and the new value
of the simulation pointer. -/
def makeSimulation (particleSystemInitializer : Option ParticleSystemInitializer)
    (solver : ParticleSolver) : List Event × Option ParticleSimulation :=
  let sim : ParticleSimulation :=
    ⟨particleSystemInitializer, solver, worldDimensions, windowDim⟩
  ([.makeSolver solver, .makeParticleSimulation sim], some sim)

/-- Lines 76-162, the `switch` on `args.getVersion()`: the events of the `case` that runs
and the value of `particleSimulation` after the `switch`, or `none` when an exception
leaves the `case`.  Every `case` ends with `break`.  The two path variables are assigned
inside the GPU cases only, just before the call, each from its own call of
`getFileDir()`; a throw there leaves the `switch` before any solver is made.  There is no
`default:` label: for any other version nothing runs and the pointer keeps its initial
null value. -/
def versionSwitch (fileSystem : Option String) (args : ArgumentsParser)
    (particleSystemInitializer : Option ParticleSystemInitializer) :
    Option (List Event × Option ParticleSimulation) :=
  match args.getVersion with
  | .PP_CPU_SEQUENTIAL =>
      some (makeSimulation particleSystemInitializer
        ⟨.ParticleSolverCPUSequential,
          [.scalar args.getTimeStep, .scalar args.getSquaredSoftening]⟩)
  | .PP_CPU_PARALLEL =>
      some (makeSimulation particleSystemInitializer
        ⟨.ParticleSolverCPUParallel,
          [.scalar args.getTimeStep, .scalar args.getSquaredSoftening]⟩)
  | .PP_GPU_PARALLEL =>
      match getFileDir fileSystem with
      | none => none
      | some dir1 =>
        let positionsCalculatorPath := dir1 ++ "../shaders/ComputeShaders/updateParticles.glsl"
        match getFileDir fileSystem with
        | none => none
        | some dir2 =>
          let forceCalculatorPath := dir2 ++ "../shaders/ComputeShaders/forceCalculation.glsl"
          some (makeSimulation particleSystemInitializer
            ⟨.ParticleSolverGPU,
              [.scalar args.getTimeStep, .scalar args.getSquaredSoftening,
               .path positionsCalculatorPath, .path forceCalculatorPath]⟩)
  | .PP_GPU_OPTIMIZED =>
      match getFileDir fileSystem with
      | none => none
      | some dir1 =>
        let positionsCalculatorPath := dir1 ++ "../shaders/ComputeShaders/updateParticles.glsl"
        match getFileDir fileSystem with
        | none => none
        | some dir2 =>
          let forceCalculatorPath :=
            dir2 ++ "../shaders/ComputeShaders/forceCalculationOptimized.glsl"
          some (makeSimulation particleSystemInitializer
            ⟨.ParticleSolverGPU,
              [.scalar 320, .scalar args.getTimeStep, .scalar args.getSquaredSoftening,
               .path positionsCalculatorPath, .path forceCalculatorPath]⟩)
  | .BARNES_HUT_CPU_SEQ =>
      some (makeSimulation particleSystemInitializer
        ⟨.ParticleSolverBHutCPUSeq,
          [.scalar args.getTimeStep, .scalar args.getSquaredSoftening,
           .count args.getNumParticles]⟩)
  | .BARNES_HUT_CPU_PARALLEL =>
      some (makeSimulation particleSystemInitializer
        ⟨.ParticleSolverBHutCPUParallel,
          [.scalar args.getTimeStep, .scalar args.getSquaredSoftening,
           .count args.getNumParticles]⟩)
  | .BARNES_HUT_GPU_PARALLEL =>
      match getFileDir fileSystem with
      | none => none
      | some dir1 =>
        let positionsCalculatorPath := dir1 ++ "../shaders/ComputeShaders/updateParticles.glsl"
        match getFileDir fileSystem with
        | none => none
        | some dir2 =>
          let forceCalculatorPath := dir2 ++ "../shaders/ComputeShaders/forceCalcuBarnesHut.glsl"
          some (makeSimulation particleSystemInitializer
            ⟨.ParticleSolverBHutGPU,
              [.scalar args.getTimeStep, .scalar args.getSquaredSoftening,
               .count args.getNumParticles,
               .path positionsCalculatorPath, .path forceCalculatorPath]⟩)
  | .other _ => some ([], none)

/-- Lines 33-167, `main`: the trace of the run.  `args` is the parsed command line and
`fileSystem` what the file system answers about the source file (see `getFileDir`).  The
window and the render loop are constructed first; the first `switch` either sets the
initializer pointer or exits; the second `switch` sets the simulation pointer, leaves it
null, or is left by an exception, which nothing catches, so the process terminates;
otherwise lines 163-165 construct the `WindowInputManager` and call `runLoop`. -/
def main (fileSystem : Option String) (args : ArgumentsParser) : List Event :=
  let start : List Event :=
    [.constructWindow windowDim "N-body simulation",
     .constructRenderLoop windowDim true true]
  let filePath := args.getFilePath
  match initializerSwitch args filePath with
  | .error status => start ++ [.exit status]
  | .ok made =>
      let particleSystemInitializer := some made
      match versionSwitch fileSystem args particleSystemInitializer with
      | none => start ++ [.makeInitializer made, .terminate]
      | some switched =>
          let particleSimulation := switched.2
          start ++ [.makeInitializer made] ++ switched.1 ++
            [.constructWindowInputManager particleSimulation, .runLoop particleSimulation]

/-! ## Reading a trace and a constructor call -/

/-- The solvers made during a run, in order. -/
def solversMade (trace : List Event) : List ParticleSolver :=
  trace.filterMap fun e => match e with
    | .makeSolver s => some s
    | _ => none

/-- The simulations made during a run, in order. -/
def simulationsMade (trace : List Event) : List ParticleSimulation :=
  trace.filterMap fun e => match e with
    | .makeParticleSimulation sim => some sim
    | _ => none

/-- The initializers made during a run, in order. -/
def initializersMade (trace : List Event) : List ParticleSystemInitializer :=
  trace.filterMap fun e => match e with
    | .makeInitializer i => some i
    | _ => none

/-- The arguments of the calls to `renderLoop.runLoop` during a run. -/
def runLoopCalls (trace : List Event) : List (Option ParticleSimulation) :=
  trace.filterMap fun e => match e with
    | .runLoop sim => some sim
    | _ => none

/-- The arguments given to the `WindowInputManager` constructor during a run. -/
def windowInputManagersMade (trace : List Event) : List (Option ParticleSimulation) :=
  trace.filterMap fun e => match e with
    | .constructWindowInputManager sim => some sim
    | _ => none

/-- The number of times a run ends by an uncaught exception (0 or 1). -/
def terminations (trace : List Event) : ℕ :=
  trace.count .terminate

/-- The statuses passed to `exit` during a run. -/
def exitCalls (trace : List Event) : List Int :=
  trace.filterMap fun e => match e with
    | .exit status => some status
    | _ => none

/-- The seven initialization types with a `case` label in `main`. -/
def supportedInitializationTypes : List InitializationType :=
  [.GALAXY, .CUBE, .LAGRANGE, .SPHERE, .BALL, .CUBE_SURFACE, .SYSTEM_FILE]

/-- The seven versions with a `case` label in `main`. -/
def supportedVersions : List Version :=
  [.PP_CPU_SEQUENTIAL, .PP_CPU_PARALLEL, .PP_GPU_PARALLEL, .PP_GPU_OPTIMIZED,
   .BARNES_HUT_CPU_SEQ, .BARNES_HUT_CPU_PARALLEL, .BARNES_HUT_GPU_PARALLEL]

/-- The three versions that run on the GPU. -/
def gpuVersions : List Version :=
  [.PP_GPU_PARALLEL, .PP_GPU_OPTIMIZED, .BARNES_HUT_GPU_PARALLEL]

/-- The three Barnes-Hut versions. -/
def barnesHutVersions : List Version :=
  [.BARNES_HUT_CPU_SEQ, .BARNES_HUT_CPU_PARALLEL, .BARNES_HUT_GPU_PARALLEL]

/-- The five initialization types whose layout is generated from a particle count. -/
def generatedLayouts : List InitializationType :=
  [.GALAXY, .CUBE, .SPHERE, .BALL, .CUBE_SURFACE]

/-- The solver classes that compute on the CPU. -/
def SolverClass.isCPU : SolverClass → Bool
  | .ParticleSolverCPUSequential => true
  | .ParticleSolverCPUParallel => true
  | .ParticleSolverBHutCPUSeq => true
  | .ParticleSolverBHutCPUParallel => true
  | .ParticleSolverGPU => false
  | .ParticleSolverBHutGPU => false

/-- The path arguments of a solver constructor call, in call order.  At the three call
sites that pass paths the first is `positionsCalculatorPath` (the integration stage) and
the second is `forceCalculatorPath` (the force stage). -/
def ParticleSolver.stagePaths (s : ParticleSolver) : List String :=
  s.args.filterMap fun a => match a with
    | .path p => some p
    | _ => none

/-- The arguments of a solver constructor call that are not paths, in call order. -/
def ParticleSolver.valueArgs (s : ParticleSolver) : List CtorArg :=
  s.args.filter fun a => match a with
    | .path _ => false
    | _ => true

/-- Modelled from the spec: the solver headers are not among the sources, so the meaning
of each constructor parameter is taken from the configuration the spec lists, "(Δt, ε²,
particle count, θ, work-group size where applicable)".  The overload of
`ParticleSolverGPU` with three floating-point arguments before the paths is the one "sized
to an explicit work-group size (e.g., 320)"; that size is its first argument. -/
def ParticleSolver.workGroupSize (s : ParticleSolver) : Option ℚ :=
  match s.cls, s.args with
  | .ParticleSolverGPU, [.scalar w, .scalar _, .scalar _, .path _, .path _] => some w
  | _, _ => none

/-- Modelled from the spec: the configuration arguments that follow the work-group size,
when the call has one; all arguments otherwise. -/
def ParticleSolver.config (s : ParticleSolver) : List CtorArg :=
  match s.workGroupSize with
  | some _ => s.args.tail
  | none => s.args

/-- Modelled from the spec: the time step Δt is the first configuration argument. -/
def ParticleSolver.timeStep (s : ParticleSolver) : Option ℚ :=
  match s.config with
  | .scalar dt :: _ => some dt
  | _ => none

/-- Modelled from the spec: the squared softening ε² is the second configuration
argument. -/
def ParticleSolver.squaredSoftening (s : ParticleSolver) : Option ℚ :=
  match s.config with
  | _ :: .scalar eps :: _ => some eps
  | _ => none

/-- Modelled from the spec: the particle count, when given, is the third configuration
argument. -/
def ParticleSolver.numParticles (s : ParticleSolver) : Option ℕ :=
  match s.config with
  | _ :: _ :: .count n :: _ => some n
  | _ => none

/-- The solver class that each version names. -/
def namedSolverClass : Version → Option SolverClass
  | .PP_CPU_SEQUENTIAL => some .ParticleSolverCPUSequential
  | .PP_CPU_PARALLEL => some .ParticleSolverCPUParallel
  | .PP_GPU_PARALLEL => some .ParticleSolverGPU
  | .PP_GPU_OPTIMIZED => some .ParticleSolverGPU
  | .BARNES_HUT_CPU_SEQ => some .ParticleSolverBHutCPUSeq
  | .BARNES_HUT_CPU_PARALLEL => some .ParticleSolverBHutCPUParallel
  | .BARNES_HUT_GPU_PARALLEL => some .ParticleSolverBHutGPU
  | .other _ => none

/-- The initializer class that each initialization type names. -/
def namedInitializerClass : InitializationType → Option InitializerClass
  | .GALAXY => some .ParticleSystemGalaxyInitializer
  | .CUBE => some .ParticleSystemCubeInitializer
  | .LAGRANGE => some .ParticleSystemLagrange
  | .SPHERE => some .ParticleSystemSphere
  | .BALL => some .ParticleSystemBall
  | .CUBE_SURFACE => some .ParticleSystemCubeSurface
  | .SYSTEM_FILE => some .ParticleSystemFile
  | .other _ => none

/-- The force-stage file that each GPU version names, relative to `getFileDir()`. -/
def forceStageFile : Version → String
  | .PP_GPU_PARALLEL => "../shaders/ComputeShaders/forceCalculation.glsl"
  | .PP_GPU_OPTIMIZED => "../shaders/ComputeShaders/forceCalculationOptimized.glsl"
  | .BARNES_HUT_GPU_PARALLEL => "../shaders/ComputeShaders/forceCalcuBarnesHut.glsl"
  | _ => ""

/-- A sample argument set: a galaxy of 1000 particles, direct sequential CPU solver. -/
def sampleArgs : ArgumentsParser :=
  { getInitializationType := .GALAXY
    getVersion := .PP_CPU_SEQUENTIAL
    getNumParticles := 1000
    getTimeStep := 1 / 100
    getSquaredSoftening := 1 / 1000
    getFilePath := "" }

/-! ## The octree builder -/


/-- A point or vector of space, three exact components. -/
abbrev Vec3 := ℚ × ℚ × ℚ

/-- Modelled from the spec: the particle record of the data model, "position (3
floating-point components), velocity (3 components), mass (scalar, positive)"; the
particle buffer is a list of these.  The record's declaration is not among the sources. -/
structure Particle where
  position : Vec3
  velocity : Vec3
  mass : ℚ

/-- Modelled from the spec: the octree node of the data model, whose code is not among the
sources: "the region's center and half-extent; aggregate mass and center-of-mass of all
particles it contains; either (a) a single contained particle (leaf) or (b) up to eight
child node references (internal), or (c) no particles (empty, pruned)".  An internal node
stores its aggregate; the aggregate of a leaf is its particle and that of an empty node
is zero (see `OctreeNode.mass`, `OctreeNode.centerOfMass`). -/
inductive OctreeNode where
  | empty (center : Vec3) (halfExtent : ℚ)
  | leaf (center : Vec3) (halfExtent : ℚ) (particle : Particle)
  | internal (center : Vec3) (halfExtent : ℚ) (mass : ℚ) (centerOfMass : Vec3)
      (children : Fin 8 → OctreeNode)

/-- Modelled from the spec: the aggregate mass a node holds. -/
def OctreeNode.mass : OctreeNode → ℚ
  | .empty _ _ => 0
  | .leaf _ _ p => p.mass
  | .internal _ _ m _ _ => m

/-- Modelled from the spec: the center of mass a node holds. -/
def OctreeNode.centerOfMass : OctreeNode → Vec3
  | .empty _ _ => 0
  | .leaf _ _ p => p.position
  | .internal _ _ _ com _ => com

/-- Modelled from the spec: the octant of a region in which a position lies, one bit per
axis ("every internal node's eight children partition its region into equal octants"). -/
def octantOf (center : Vec3) (position : Vec3) : Fin 8 :=
  ⟨(if center.1 ≤ position.1 then 1 else 0) +
   (if center.2.1 ≤ position.2.1 then 2 else 0) +
   (if center.2.2 ≤ position.2.2 then 4 else 0), by split_ifs <;> omega⟩

/-- Modelled from the spec: the center of the octant `k` of a region; its half-extent is
half the region's. -/
def childCenter (center : Vec3) (halfExtent : ℚ) (k : Fin 8) : Vec3 :=
  (center.1 + (if k.val % 2 = 1 then halfExtent / 2 else -(halfExtent / 2)),
   center.2.1 + (if k.val / 2 % 2 = 1 then halfExtent / 2 else -(halfExtent / 2)),
   center.2.2 + (if k.val / 4 % 2 = 1 then halfExtent / 2 else -(halfExtent / 2)))

/-- Modelled from the spec: two particles "treated as merged into one aggregate point":
the masses add and position and velocity are the mass-weighted averages. -/
def Particle.merge (q p : Particle) : Particle :=
  { position := (q.mass + p.mass)⁻¹ • (q.mass • q.position + p.mass • p.position)
    velocity := (q.mass + p.mass)⁻¹ • (q.mass • q.velocity + p.mass • p.velocity)
    mass := q.mass + p.mass }

/-- Modelled from the spec: the insertion policy of the octree builder.  "any node reached
that is empty becomes a leaf holding that particle; any leaf reached that already holds a
particle is converted to an internal node, its existing particle and the new one are
re-inserted into the appropriate child octants (recursing if both land in the same octant,
bounded by a maximum recursion depth ...  at that depth the particles are treated as
merged into one aggregate point)".  `depthLeft` counts the levels that remain below the
node before the maximum depth.  An internal node with no level left below it cannot
arise from this policy (see `OctreeNode.DepthOK`); it is returned as it is. -/
def OctreeNode.insert : (depthLeft : ℕ) → OctreeNode → Particle → OctreeNode
  | _, .empty c h, p => .leaf c h p
  | 0, .leaf c h q, p => .leaf c h (q.merge p)
  | d + 1, .leaf c h q, p =>
      let fresh : Fin 8 → OctreeNode := fun k => .empty (childCenter c h k) (h / 2)
      let kq := octantOf c q.position
      let withOld := Function.update fresh kq (OctreeNode.insert d (fresh kq) q)
      let kp := octantOf c p.position
      .internal c h 0 0 (Function.update withOld kp (OctreeNode.insert d (withOld kp) p))
  | d + 1, .internal c h m com children, p =>
      let k := octantOf c p.position
      .internal c h m com (Function.update children k (OctreeNode.insert d (children k) p))
  | 0, .internal c h m com children, _ => .internal c h m com children

/-- Modelled from the spec: "After insertion, a bottom-up pass computes aggregate mass and
center-of-mass for every internal node": the mass is the sum of the children's masses and
the center of mass their mass-weighted average. -/
def OctreeNode.aggregate : OctreeNode → OctreeNode
  | .empty c h => .empty c h
  | .leaf c h p => .leaf c h p
  | .internal c h _ _ children =>
      let done : Fin 8 → OctreeNode := fun k => (children k).aggregate
      let m : ℚ := ∑ k, (done k).mass
      .internal c h m (m⁻¹ • ∑ k, (done k).mass • (done k).centerOfMass) done

/-- Modelled from the spec: the octree builder.  "particles are inserted one at a time into
the root", which starts empty and spans the bounding cube, then the bottom-up pass
runs. -/
def buildOctree (maxDepth : ℕ) (center : Vec3) (halfExtent : ℚ) (buffer : List Particle) :
    OctreeNode :=
  (buffer.foldl (fun (root : OctreeNode) p => root.insert maxDepth p)
    (OctreeNode.empty center halfExtent)).aggregate

/-- The sum of the masses of the particles of a buffer. -/
def totalMass (buffer : List Particle) : ℚ :=
  (buffer.map fun p => p.mass).sum

/-- The sum of the mass-weighted positions of the particles of a buffer. -/
def totalMoment (buffer : List Particle) : Vec3 :=
  (buffer.map fun p => p.mass • p.position).sum

/-- A sample buffer: three particles, two of them at the same position. -/
def sampleBuffer : List Particle :=
  [⟨(1, 1, 1), 0, 2⟩, ⟨(-1, 2, 3), 0, 1⟩, ⟨(1, 1, 1), 0, 3⟩]

/-! ## What a tree holds before the bottom-up pass -/

/-- The mass of the particles held in the leaves below a node. -/
def OctreeNode.heldMass : OctreeNode → ℚ
  | .empty _ _ => 0
  | .leaf _ _ p => p.mass
  | .internal _ _ _ _ children => ∑ k, (children k).heldMass

/-- The sum of the mass-weighted positions of the particles held below a node. -/
def OctreeNode.heldMoment : OctreeNode → Vec3
  | .empty _ _ => 0
  | .leaf _ _ p => p.mass • p.position
  | .internal _ _ _ _ children => ∑ k, (children k).heldMoment

/-- Every particle held below the node has positive mass. -/
def OctreeNode.PositiveLeaves : OctreeNode → Prop
  | .empty _ _ => True
  | .leaf _ _ p => 0 < p.mass
  | .internal _ _ _ _ children => ∀ k, (children k).PositiveLeaves

/-- Internal nodes occur only where at least one level is left below them. -/
def OctreeNode.DepthOK : OctreeNode → ℕ → Prop
  | .empty _ _, _ => True
  | .leaf _ _ _, _ => True
  | .internal _ _ _ _ children, d => 0 < d ∧ ∀ k, (children k).DepthOK (d - 1)

/-! ## Theorems about `main` -/

/-- Appending to the same string on the left is injective. -/
theorem string_append_left_cancel (d a b : String) (h : d ++ a = d ++ b) : a = b := by
  have h2 := congrArg String.data h
  simp only [String.data_append] at h2
  exact String.ext (List.append_cancel_left h2)

/-- The three force-stage files are pairwise different. -/
theorem forceStageFile_injOn (v w : Version) (hv : v ∈ gpuVersions) (hw : w ∈ gpuVersions)
    (h : forceStageFile v = forceStageFile w) : v = w := by
  simp only [gpuVersions, List.mem_cons, List.mem_singleton, List.not_mem_nil, or_false] at hv hw
  rcases hv with rfl | rfl | rfl <;> rcases hw with rfl | rfl | rfl <;>
    first
      | rfl
      | (exfalso; revert h; decide)

/-- A supported initialization type makes the first `switch` produce an initializer. -/
theorem initializerSwitch_ok (args : ArgumentsParser) (filePath : String)
    (hi : args.getInitializationType ∈ supportedInitializationTypes) :
    ∃ init, initializerSwitch args filePath = .ok init := by
  obtain ⟨i, v, n, dt, eps, f⟩ := args
  cases i <;> simp [supportedInitializationTypes] at hi <;> simp [initializerSwitch]

/-- The solver can be read back from the result of a `case`. -/
theorem makeSimulation_inj (init : Option ParticleSystemInitializer)
    (s t : ParticleSolver) (h : makeSimulation init s = makeSimulation init t) : s = t := by
  simp only [makeSimulation, Prod.mk.injEq, Option.some.injEq] at h
  exact congrArg ParticleSimulation.solver h.2

/-- A supported version makes the second `switch` run one `case` to its end, provided
`getFileDir()` returns when the `case` calls it. -/
theorem versionSwitch_some (fileSystem : Option String) (args : ArgumentsParser)
    (init : Option ParticleSystemInitializer)
    (hv : args.getVersion ∈ supportedVersions)
    (hfs : args.getVersion ∈ gpuVersions → (getFileDir fileSystem).isSome) :
    ∃ solver, versionSwitch fileSystem args init = some (makeSimulation init solver) := by
  obtain ⟨i, v, n, dt, eps, f⟩ := args
  cases fileSystem with
  | none =>
    cases v <;> simp [supportedVersions] at hv <;>
      first
        | exact ⟨_, rfl⟩
        | simp [gpuVersions, getFileDir] at hfs
  | some parent => cases v <;> simp [supportedVersions] at hv <;> exact ⟨_, rfl⟩

/-- Past the first `switch`, the run of `main` is decided by the second `switch`. -/
theorem main_trace_of_init (fileSystem : Option String) (args : ArgumentsParser)
    (init : ParticleSystemInitializer)
    (hi : initializerSwitch args args.getFilePath = .ok init) :
    main fileSystem args =
      match versionSwitch fileSystem args (some init) with
      | none =>
          [.constructWindow windowDim "N-body simulation",
           .constructRenderLoop windowDim true true,
           .makeInitializer init, .terminate]
      | some switched =>
          [.constructWindow windowDim "N-body simulation",
           .constructRenderLoop windowDim true true,
           .makeInitializer init] ++ switched.1 ++
          [.constructWindowInputManager switched.2, .runLoop switched.2] := by
  simp only [main, hi]
  cases versionSwitch fileSystem args (some init) <;> rfl

/-- The run of `main` once both `switch` statements have run a `case` to its end. -/
theorem main_trace_of_ok (fileSystem : Option String) (args : ArgumentsParser)
    (init : ParticleSystemInitializer) (solver : ParticleSolver)
    (hi : initializerSwitch args args.getFilePath = .ok init)
    (hs : versionSwitch fileSystem args (some init) =
      some (makeSimulation (some init) solver)) :
    main fileSystem args =
      [.constructWindow windowDim "N-body simulation",
       .constructRenderLoop windowDim true true,
       .makeInitializer init,
       .makeSolver solver,
       .makeParticleSimulation ⟨some init, solver, worldDimensions, windowDim⟩,
       .constructWindowInputManager (some ⟨some init, solver, worldDimensions, windowDim⟩),
       .runLoop (some ⟨some init, solver, worldDimensions, windowDim⟩)] := by
  rw [main_trace_of_init fileSystem args init hi, hs]
  rfl

/-- Past the first `switch`, the solvers made are those the second `switch` makes; none
when an exception leaves it. -/
theorem solversMade_main (fileSystem : Option String) (args : ArgumentsParser)
    (init : ParticleSystemInitializer)
    (hi : initializerSwitch args args.getFilePath = .ok init) :
    solversMade (main fileSystem args) =
      match versionSwitch fileSystem args (some init) with
      | none => []
      | some switched => solversMade switched.1 := by
  rw [main_trace_of_init fileSystem args init hi]
  cases versionSwitch fileSystem args (some init) <;> simp [solversMade]

/-- The error path of the GPU cases: when `std::filesystem::canonical` throws inside
`getFileDir()`, a run that selected a GPU version ends after the initializer is made,
with no solver and no simulation, and never reaches the render loop. -/
theorem main_gpu_terminates_without_source_file (args : ArgumentsParser)
    (hi : args.getInitializationType ∈ supportedInitializationTypes)
    (hg : args.getVersion ∈ gpuVersions) :
    solversMade (main none args) = [] ∧ simulationsMade (main none args) = [] ∧
    runLoopCalls (main none args) = [] ∧ terminations (main none args) = 1 := by
  obtain ⟨init, hinit⟩ := initializerSwitch_ok args args.getFilePath hi
  have hs : versionSwitch none args (some init) = none := by
    simp only [gpuVersions, List.mem_cons, List.mem_singleton, List.not_mem_nil,
      or_false] at hg
    rcases hg with h | h | h <;> simp [versionSwitch, h, getFileDir]
  rw [main_trace_of_init none args init hinit, hs]
  simp [solversMade, simulationsMade, runLoopCalls, terminations]

/-- C1 (the run at the failing input): with the galaxy layout and a version that has no
`case`, `main` does not exit: it makes no solver and no simulation, constructs the
`WindowInputManager` with the null simulation pointer and calls `runLoop` on it. -/
theorem main_unhandled_version_runs_loop :
    main (some "/repo/src") { sampleArgs with getVersion := .other 7 } =
      [.constructWindow windowDim "N-body simulation",
       .constructRenderLoop windowDim true true,
       .makeInitializer ⟨.ParticleSystemGalaxyInitializer, [.count 1000]⟩,
       .constructWindowInputManager none,
       .runLoop none] ∧
    exitCalls (main (some "/repo/src") { sampleArgs with getVersion := .other 7 }) = [] ∧
    windowInputManagersMade (main (some "/repo/src") { sampleArgs with getVersion := .other 7 })
      = [none] ∧
    runLoopCalls (main (some "/repo/src") { sampleArgs with getVersion := .other 7 })
      = [none] := by
  refine ⟨rfl, rfl, rfl, rfl⟩

/-- C2: when the initialization type is none of the seven named ones, whatever the file
system answers, the whole run of `main` is: construct the window, construct the render
loop, `exit(EXIT_FAILURE)`.  So no initializer, solver or `ParticleSimulation` is made and
`runLoop` is not called. -/
theorem main_unsupported_initialization_exits (fileSystem : Option String)
    (args : ArgumentsParser)
    (h : args.getInitializationType ∉ supportedInitializationTypes) :
    main fileSystem args =
      [.constructWindow windowDim "N-body simulation",
       .constructRenderLoop windowDim true true,
       .exit EXIT_FAILURE] ∧
    exitCalls (main fileSystem args) = [EXIT_FAILURE] ∧
    solversMade (main fileSystem args) = [] ∧
    simulationsMade (main fileSystem args) = [] ∧
    windowInputManagersMade (main fileSystem args) = [] ∧
    runLoopCalls (main fileSystem args) = [] := by
  obtain ⟨i, v, n, dt, eps, f⟩ := args
  cases i <;> simp [supportedInitializationTypes] at h
  simp [main, initializerSwitch, exitCalls, solversMade, simulationsMade,
    windowInputManagersMade, runLoopCalls]

/-- Witness for C2 at the initialization value `other 9`. -/
theorem main_unsupported_initialization_exits_witness :
    ({ sampleArgs with getInitializationType := .other 9 } : ArgumentsParser).getInitializationType
        ∉ supportedInitializationTypes ∧
    (main (some "/repo/src") { sampleArgs with getInitializationType := .other 9 } =
      [.constructWindow windowDim "N-body simulation",
       .constructRenderLoop windowDim true true,
       .exit EXIT_FAILURE] ∧
    exitCalls (main (some "/repo/src") { sampleArgs with getInitializationType := .other 9 })
      = [EXIT_FAILURE] ∧
    solversMade (main (some "/repo/src") { sampleArgs with getInitializationType := .other 9 })
      = [] ∧
    simulationsMade (main (some "/repo/src") { sampleArgs with getInitializationType := .other 9 })
      = [] ∧
    windowInputManagersMade
      (main (some "/repo/src") { sampleArgs with getInitializationType := .other 9 }) = [] ∧
    runLoopCalls (main (some "/repo/src") { sampleArgs with getInitializationType := .other 9 })
      = []) :=
  ⟨by decide,
   main_unsupported_initialization_exits (some "/repo/src")
     { sampleArgs with getInitializationType := .other 9 } (by decide)⟩

/-- C3: when control reaches the version `switch` (the initialization type is one of the
seven), the version is one of the seven and `getFileDir()` returns if the version's `case`
calls it, `main` makes exactly one solver and exactly one `ParticleSimulation`, which
holds that solver; the solver's class is the one the version names; the direct GPU
version gets the direct force stage and the optimized one the optimized force stage; a
GPU version gets a non-CPU class; and no other supported version yields, for the same
arguments, the same solver construction. -/
theorem main_makes_the_named_solver (fileSystem : Option String) (args : ArgumentsParser)
    (hi : args.getInitializationType ∈ supportedInitializationTypes)
    (hv : args.getVersion ∈ supportedVersions)
    (hfs : args.getVersion ∈ gpuVersions → (getFileDir fileSystem).isSome) :
    ∃ solver sim,
      solversMade (main fileSystem args) = [solver] ∧
      simulationsMade (main fileSystem args) = [sim] ∧
      sim.solver = solver ∧
      namedSolverClass args.getVersion = some solver.cls ∧
      (args.getVersion = .PP_GPU_PARALLEL → ∀ dir, getFileDir fileSystem = some dir →
        solver.stagePaths.getLast? =
          some (dir ++ "../shaders/ComputeShaders/forceCalculation.glsl")) ∧
      (args.getVersion = .PP_GPU_OPTIMIZED → ∀ dir, getFileDir fileSystem = some dir →
        solver.stagePaths.getLast? =
          some (dir ++ "../shaders/ComputeShaders/forceCalculationOptimized.glsl")) ∧
      (args.getVersion ∈ gpuVersions → solver.cls.isCPU = false) ∧
      (∀ w ∈ supportedVersions, w ≠ args.getVersion →
        solversMade (main fileSystem { args with getVersion := w }) ≠ [solver]) := by
  obtain ⟨init, hinit⟩ := initializerSwitch_ok args args.getFilePath hi
  obtain ⟨solver, hs⟩ := versionSwitch_some fileSystem args (some init) hv hfs
  refine ⟨solver, ⟨some init, solver, worldDimensions, windowDim⟩, ?_, ?_, rfl, ?_⟩
  · rw [main_trace_of_ok fileSystem args init solver hinit hs]; rfl
  · rw [main_trace_of_ok fileSystem args init solver hinit hs]; rfl
  have key : ∀ w, solversMade (main fileSystem { args with getVersion := w }) =
      match versionSwitch fileSystem { args with getVersion := w } (some init) with
      | none => []
      | some switched => solversMade switched.1 :=
    fun w => solversMade_main fileSystem { args with getVersion := w } init hinit
  simp only [supportedVersions, List.mem_cons, List.mem_singleton, List.not_mem_nil,
    or_false] at hv
  cases fileSystem <;> rcases hv with h | h | h | h | h | h | h
  all_goals
    first
      | (simp only [versionSwitch, h, getFileDir, Option.some.injEq] at hs
         have hs := makeSimulation_inj _ _ _ hs
         subst hs
         refine ⟨by rw [h]; rfl, ?_, ?_, ?_, ?_⟩
         · intro h2
           first
             | (rw [h] at h2; exact absurd h2 (by decide))
             | (intro dir hdir
                simp only [getFileDir, Option.some.injEq] at hdir
                subst hdir
                rfl)
         · intro h2
           first
             | (rw [h] at h2; exact absurd h2 (by decide))
             | (intro dir hdir
                simp only [getFileDir, Option.some.injEq] at hdir
                subst hdir
                rfl)
         · intro h2
           first
             | rfl
             | (rw [h] at h2; exact absurd h2 (by decide))
         · intro w hw hne
           rw [key w, h] at *
           simp only [supportedVersions, List.mem_cons, List.mem_singleton, List.not_mem_nil,
             or_false] at hw
           rcases hw with rfl | rfl | rfl | rfl | rfl | rfl | rfl <;>
             first
               | exact absurd rfl hne
               | simp [versionSwitch, getFileDir, makeSimulation, solversMade])
      | simp only [versionSwitch, h, getFileDir, reduceCtorEq] at hs

/-- Witness for C3 at the sample arguments with the direct GPU version. -/
theorem main_makes_the_named_solver_witness :
    ({ sampleArgs with getVersion := .PP_GPU_PARALLEL } : ArgumentsParser).getInitializationType
      ∈ supportedInitializationTypes ∧
    ({ sampleArgs with getVersion := .PP_GPU_PARALLEL } : ArgumentsParser).getVersion
      ∈ supportedVersions ∧
    (Version.PP_GPU_PARALLEL ∈ gpuVersions → (getFileDir (some "/repo/src")).isSome) ∧
    ∃ solver sim,
      solversMade (main (some "/repo/src") { sampleArgs with getVersion := .PP_GPU_PARALLEL })
        = [solver] ∧
      simulationsMade (main (some "/repo/src") { sampleArgs with getVersion := .PP_GPU_PARALLEL })
        = [sim] ∧
      sim.solver = solver ∧
      namedSolverClass .PP_GPU_PARALLEL = some solver.cls ∧
      (Version.PP_GPU_PARALLEL = .PP_GPU_PARALLEL →
        ∀ dir, getFileDir (some "/repo/src") = some dir →
        solver.stagePaths.getLast? =
          some (dir ++ "../shaders/ComputeShaders/forceCalculation.glsl")) ∧
      (Version.PP_GPU_PARALLEL = .PP_GPU_OPTIMIZED →
        ∀ dir, getFileDir (some "/repo/src") = some dir →
        solver.stagePaths.getLast? =
          some (dir ++ "../shaders/ComputeShaders/forceCalculationOptimized.glsl")) ∧
      (Version.PP_GPU_PARALLEL ∈ gpuVersions → solver.cls.isCPU = false) ∧
      (∀ w ∈ supportedVersions, w ≠ Version.PP_GPU_PARALLEL →
        solversMade (main (some "/repo/src")
          { ({ sampleArgs with getVersion := .PP_GPU_PARALLEL } : ArgumentsParser) with
            getVersion := w }) ≠ [solver]) :=
  ⟨by decide, by decide, fun _ => rfl,
   main_makes_the_named_solver (some "/repo/src")
     { sampleArgs with getVersion := .PP_GPU_PARALLEL } (by decide) (by decide) (fun _ => rfl)⟩

/-- C4: when control reaches the version `switch`, the version is one of the seven and
`getFileDir()` returns if the version's `case` calls it, the one solver that `main` makes
receives `args.getTimeStep()` as its time step and `args.getSquaredSoftening()` as its
squared softening, unchanged; the values do not depend on which of the seven versions is
selected. -/
theorem solver_gets_time_step_and_softening (fileSystem : Option String)
    (args : ArgumentsParser)
    (hi : args.getInitializationType ∈ supportedInitializationTypes)
    (hv : args.getVersion ∈ supportedVersions)
    (hfs : args.getVersion ∈ gpuVersions → (getFileDir fileSystem).isSome) :
    ∃ solver,
      solversMade (main fileSystem args) = [solver] ∧
      solver.timeStep = some args.getTimeStep ∧
      solver.squaredSoftening = some args.getSquaredSoftening := by
  obtain ⟨init, hinit⟩ := initializerSwitch_ok args args.getFilePath hi
  obtain ⟨solver, hs⟩ := versionSwitch_some fileSystem args (some init) hv hfs
  refine ⟨solver, by rw [main_trace_of_ok fileSystem args init solver hinit hs]; rfl, ?_⟩
  simp only [supportedVersions, List.mem_cons, List.mem_singleton, List.not_mem_nil,
    or_false] at hv
  cases fileSystem <;> rcases hv with h | h | h | h | h | h | h
  all_goals
    first
      | (simp only [versionSwitch, h, getFileDir, Option.some.injEq] at hs
         have hs := makeSimulation_inj _ _ _ hs
         subst hs
         exact ⟨rfl, rfl⟩)
      | simp only [versionSwitch, h, getFileDir, reduceCtorEq] at hs

/-- Witness for C4 at the optimized GPU version. -/
theorem solver_gets_time_step_and_softening_witness :
    ({ sampleArgs with getVersion := .PP_GPU_OPTIMIZED } : ArgumentsParser).getInitializationType
      ∈ supportedInitializationTypes ∧
    ({ sampleArgs with getVersion := .PP_GPU_OPTIMIZED } : ArgumentsParser).getVersion
      ∈ supportedVersions ∧
    (Version.PP_GPU_OPTIMIZED ∈ gpuVersions → (getFileDir (some "/repo/src")).isSome) ∧
    ∃ solver,
      solversMade (main (some "/repo/src") { sampleArgs with getVersion := .PP_GPU_OPTIMIZED })
        = [solver] ∧
      solver.timeStep = some (1 / 100) ∧
      solver.squaredSoftening = some (1 / 1000) :=
  ⟨by decide, by decide, fun _ => rfl,
   solver_gets_time_step_and_softening (some "/repo/src")
     { sampleArgs with getVersion := .PP_GPU_OPTIMIZED } (by decide) (by decide) (fun _ => rfl)⟩

/-- C5: when control reaches the version `switch`, the version is one of the seven and
`getFileDir()` returns if the version's `case` calls it, the solver gets stage paths
exactly when the version is one of the three GPU versions: then it gets two, the
integration stage `getFileDir() + ".../updateParticles.glsl"` first and the version's
force stage `getFileDir() + ...` second; otherwise it gets none.  The force-stage paths of
two different GPU versions differ, whatever the directory. -/
theorem gpu_versions_get_two_stage_paths (fileSystem : Option String)
    (args : ArgumentsParser)
    (hi : args.getInitializationType ∈ supportedInitializationTypes)
    (hv : args.getVersion ∈ supportedVersions)
    (hfs : args.getVersion ∈ gpuVersions → (getFileDir fileSystem).isSome) :
    ∃ solver,
      solversMade (main fileSystem args) = [solver] ∧
      (args.getVersion ∈ gpuVersions → ∀ dir, getFileDir fileSystem = some dir →
        solver.stagePaths =
          [dir ++ "../shaders/ComputeShaders/updateParticles.glsl",
           dir ++ forceStageFile args.getVersion]) ∧
      (args.getVersion ∉ gpuVersions → solver.stagePaths = []) ∧
      (∀ dir : String, ∀ v ∈ gpuVersions, ∀ w ∈ gpuVersions, w ≠ v →
        dir ++ forceStageFile w ≠ dir ++ forceStageFile v) ∧
      forceStageFile .PP_GPU_PARALLEL = "../shaders/ComputeShaders/forceCalculation.glsl" ∧
      forceStageFile .PP_GPU_OPTIMIZED =
        "../shaders/ComputeShaders/forceCalculationOptimized.glsl" ∧
      forceStageFile .BARNES_HUT_GPU_PARALLEL =
        "../shaders/ComputeShaders/forceCalcuBarnesHut.glsl" := by
  obtain ⟨init, hinit⟩ := initializerSwitch_ok args args.getFilePath hi
  obtain ⟨solver, hs⟩ := versionSwitch_some fileSystem args (some init) hv hfs
  refine ⟨solver, by rw [main_trace_of_ok fileSystem args init solver hinit hs]; rfl,
    ?_, ?_, ?_, rfl, rfl, rfl⟩
  · intro hg dir hdir
    simp only [gpuVersions, List.mem_cons, List.mem_singleton, List.not_mem_nil,
      or_false] at hg
    cases fileSystem <;> rcases hg with h | h | h
    all_goals
      first
        | (simp only [versionSwitch, h, getFileDir, Option.some.injEq] at hs hdir
           have hs := makeSimulation_inj _ _ _ hs
           subst hs
           subst hdir
           rw [h]
           rfl)
        | simp only [versionSwitch, h, getFileDir, reduceCtorEq] at hs
  · intro hg
    simp only [supportedVersions, List.mem_cons, List.mem_singleton, List.not_mem_nil,
      or_false] at hv
    cases fileSystem <;> rcases hv with h | h | h | h | h | h | h
    all_goals
      first
        | (exfalso; apply hg; rw [h]; decide)
        | (simp only [versionSwitch, h, getFileDir, Option.some.injEq] at hs
           have hs := makeSimulation_inj _ _ _ hs
           subst hs
           rfl)
  · intro dir v hgv w hgw hne heq
    exact hne (forceStageFile_injOn w v hgw hgv (string_append_left_cancel _ _ _ heq))

/-- Witness for C5 at the Barnes-Hut GPU version. -/
theorem gpu_versions_get_two_stage_paths_witness :
    ({ sampleArgs with getVersion := .BARNES_HUT_GPU_PARALLEL } :
      ArgumentsParser).getInitializationType ∈ supportedInitializationTypes ∧
    ({ sampleArgs with getVersion := .BARNES_HUT_GPU_PARALLEL } :
      ArgumentsParser).getVersion ∈ supportedVersions ∧
    (Version.BARNES_HUT_GPU_PARALLEL ∈ gpuVersions → (getFileDir (some "/repo/src")).isSome) ∧
    ∃ solver,
      solversMade (main (some "/repo/src")
        { sampleArgs with getVersion := .BARNES_HUT_GPU_PARALLEL }) = [solver] ∧
      (Version.BARNES_HUT_GPU_PARALLEL ∈ gpuVersions →
        ∀ dir, getFileDir (some "/repo/src") = some dir →
        solver.stagePaths =
          [dir ++ "../shaders/ComputeShaders/updateParticles.glsl",
           dir ++ forceStageFile .BARNES_HUT_GPU_PARALLEL]) ∧
      (Version.BARNES_HUT_GPU_PARALLEL ∉ gpuVersions → solver.stagePaths = []) ∧
      (∀ dir : String, ∀ v ∈ gpuVersions, ∀ w ∈ gpuVersions, w ≠ v →
        dir ++ forceStageFile w ≠ dir ++ forceStageFile v) ∧
      forceStageFile .PP_GPU_PARALLEL = "../shaders/ComputeShaders/forceCalculation.glsl" ∧
      forceStageFile .PP_GPU_OPTIMIZED =
        "../shaders/ComputeShaders/forceCalculationOptimized.glsl" ∧
      forceStageFile .BARNES_HUT_GPU_PARALLEL =
        "../shaders/ComputeShaders/forceCalcuBarnesHut.glsl" :=
  ⟨by decide, by decide, fun _ => rfl,
   gpu_versions_get_two_stage_paths (some "/repo/src")
     { sampleArgs with getVersion := .BARNES_HUT_GPU_PARALLEL } (by decide) (by decide)
     (fun _ => rfl)⟩

/-- C6: when control reaches the version `switch`, the version is one of the seven and
`getFileDir()` returns if the version's `case` calls it, the solver has an explicit
work-group size exactly for `PP_GPU_OPTIMIZED`, and then it is 320.  When `getFileDir()`
returns, the optimized and the direct GPU constructions for the same arguments have the
same class, time step, squared softening and integration-stage path; after the work-group
size they agree in every argument but the last one, the force-stage path. -/
theorem only_optimized_gpu_has_work_group_size (fileSystem : Option String)
    (args : ArgumentsParser)
    (hi : args.getInitializationType ∈ supportedInitializationTypes)
    (hv : args.getVersion ∈ supportedVersions)
    (hfs : args.getVersion ∈ gpuVersions → (getFileDir fileSystem).isSome) :
    (∃ solver,
      solversMade (main fileSystem args) = [solver] ∧
      (args.getVersion = .PP_GPU_OPTIMIZED → solver.workGroupSize = some 320) ∧
      (args.getVersion ≠ .PP_GPU_OPTIMIZED → solver.workGroupSize = none)) ∧
    ((getFileDir fileSystem).isSome →
      ∃ direct optimized,
        solversMade (main fileSystem { args with getVersion := .PP_GPU_PARALLEL })
          = [direct] ∧
        solversMade (main fileSystem { args with getVersion := .PP_GPU_OPTIMIZED })
          = [optimized] ∧
        optimized.cls = direct.cls ∧
        optimized.timeStep = direct.timeStep ∧
        optimized.squaredSoftening = direct.squaredSoftening ∧
        optimized.stagePaths.head? = direct.stagePaths.head? ∧
        optimized.args = .scalar 320 :: optimized.config ∧
        direct.args = direct.config ∧
        optimized.config.dropLast = direct.config.dropLast ∧
        optimized.config.getLast? ≠ direct.config.getLast?) := by
  obtain ⟨init, hinit⟩ := initializerSwitch_ok args args.getFilePath hi
  constructor
  · obtain ⟨solver, hs⟩ := versionSwitch_some fileSystem args (some init) hv hfs
    refine ⟨solver, by rw [main_trace_of_ok fileSystem args init solver hinit hs]; rfl, ?_, ?_⟩
    · intro h
      cases fileSystem with
      | none => simp only [versionSwitch, h, getFileDir, reduceCtorEq] at hs
      | some parent =>
        simp only [versionSwitch, h, getFileDir, Option.some.injEq] at hs
        have hs := makeSimulation_inj _ _ _ hs
        subst hs
        rfl
    · intro hne
      simp only [supportedVersions, List.mem_cons, List.mem_singleton, List.not_mem_nil,
        or_false] at hv
      cases fileSystem <;> rcases hv with h | h | h | h | h | h | h
      all_goals
        first
          | exact absurd h hne
          | (simp only [versionSwitch, h, getFileDir, Option.some.injEq] at hs
             have hs := makeSimulation_inj _ _ _ hs
             subst hs
             rfl)
          | simp only [versionSwitch, h, getFileDir, reduceCtorEq] at hs
  · intro hsome
    obtain ⟨direct, hsd⟩ := versionSwitch_some fileSystem
      { args with getVersion := .PP_GPU_PARALLEL } (some init)
      (by simp [supportedVersions]) (fun _ => hsome)
    obtain ⟨optimized, hso⟩ := versionSwitch_some fileSystem
      { args with getVersion := .PP_GPU_OPTIMIZED } (some init)
      (by simp [supportedVersions]) (fun _ => hsome)
    refine ⟨direct, optimized,
      by rw [main_trace_of_ok fileSystem { args with getVersion := .PP_GPU_PARALLEL }
           init direct hinit hsd]
         rfl,
      by rw [main_trace_of_ok fileSystem { args with getVersion := .PP_GPU_OPTIMIZED }
           init optimized hinit hso]
         rfl, ?_⟩
    cases fileSystem with
    | none => simp [getFileDir] at hsome
    | some parent => ?_
    simp only [versionSwitch, getFileDir, Option.some.injEq] at hsd hso
    have hsd := makeSimulation_inj _ _ _ hsd
    have hso := makeSimulation_inj _ _ _ hso
    subst hsd
    subst hso
    refine ⟨rfl, rfl, rfl, rfl, rfl, rfl, rfl, ?_⟩
    intro h
    have h2 : parent ++ "/" ++ "../shaders/ComputeShaders/forceCalculationOptimized.glsl" =
        parent ++ "/" ++ "../shaders/ComputeShaders/forceCalculation.glsl" := by
      simpa [ParticleSolver.config, ParticleSolver.workGroupSize] using h
    have h3 := string_append_left_cancel _ _ _ h2
    revert h3
    decide

/-- Witness for C6 at the sample arguments with the optimized GPU version. -/
theorem only_optimized_gpu_has_work_group_size_witness :
    ({ sampleArgs with getVersion := .PP_GPU_OPTIMIZED } : ArgumentsParser).getInitializationType
      ∈ supportedInitializationTypes ∧
    ({ sampleArgs with getVersion := .PP_GPU_OPTIMIZED } : ArgumentsParser).getVersion
      ∈ supportedVersions ∧
    (Version.PP_GPU_OPTIMIZED ∈ gpuVersions → (getFileDir (some "/repo/src")).isSome) ∧
    (getFileDir (some "/repo/src")).isSome ∧
    (∃ solver,
      solversMade (main (some "/repo/src") { sampleArgs with getVersion := .PP_GPU_OPTIMIZED })
        = [solver] ∧
      (Version.PP_GPU_OPTIMIZED = .PP_GPU_OPTIMIZED → solver.workGroupSize = some 320) ∧
      (Version.PP_GPU_OPTIMIZED ≠ .PP_GPU_OPTIMIZED → solver.workGroupSize = none)) ∧
    (∃ direct optimized,
        solversMade (main (some "/repo/src")
          { ({ sampleArgs with getVersion := .PP_GPU_OPTIMIZED } : ArgumentsParser) with
            getVersion := .PP_GPU_PARALLEL }) = [direct] ∧
        solversMade (main (some "/repo/src")
          { ({ sampleArgs with getVersion := .PP_GPU_OPTIMIZED } : ArgumentsParser) with
            getVersion := .PP_GPU_OPTIMIZED }) = [optimized] ∧
        optimized.cls = direct.cls ∧
        optimized.timeStep = direct.timeStep ∧
        optimized.squaredSoftening = direct.squaredSoftening ∧
        optimized.stagePaths.head? = direct.stagePaths.head? ∧
        optimized.args = .scalar 320 :: optimized.config ∧
        direct.args = direct.config ∧
        optimized.config.dropLast = direct.config.dropLast ∧
        optimized.config.getLast? ≠ direct.config.getLast?) :=
  ⟨by decide, by decide, fun _ => rfl, rfl,
   (only_optimized_gpu_has_work_group_size (some "/repo/src")
     { sampleArgs with getVersion := .PP_GPU_OPTIMIZED } (by decide) (by decide)
     (fun _ => rfl)).1,
   (only_optimized_gpu_has_work_group_size (some "/repo/src")
     { sampleArgs with getVersion := .PP_GPU_OPTIMIZED } (by decide) (by decide)
     (fun _ => rfl)).2 rfl⟩

/-- C7 (as stated, refuted): it is not the case that every Barnes-Hut version passes its
solver a fourth configuration value besides the time step, the squared softening and the
particle count, even among the runs that reach the construction.  At the sample arguments
with `BARNES_HUT_CPU_SEQ` the constructor call has exactly three arguments. -/
theorem barnes_hut_solver_is_not_given_theta :
    ¬ (∀ (fileSystem : Option String) (args : ArgumentsParser),
        args.getInitializationType ∈ supportedInitializationTypes →
        args.getVersion ∈ barnesHutVersions →
        (args.getVersion ∈ gpuVersions → (getFileDir fileSystem).isSome) →
        ∃ solver ∈ solversMade (main fileSystem args), 4 ≤ solver.valueArgs.length) := by
  intro h
  obtain ⟨solver, hmem, hlen⟩ :=
    h (some "/repo/src") { sampleArgs with getVersion := .BARNES_HUT_CPU_SEQ }
      (by decide) (by decide) (fun _ => rfl)
  have hm : solversMade (main (some "/repo/src")
      { sampleArgs with getVersion := .BARNES_HUT_CPU_SEQ })
      = [⟨.ParticleSolverBHutCPUSeq, [.scalar (1 / 100), .scalar (1 / 1000), .count 1000]⟩] :=
    rfl
  rw [hm, List.mem_singleton] at hmem
  subst hmem
  revert hlen
  decide

/-- C7 (amended): when control reaches the version `switch`, the version is one of the
three Barnes-Hut versions and `getFileDir()` returns if the version's `case` calls it,
the values passed to the one solver made are exactly the time step, the squared softening
and the particle count, in this order, followed by exactly two stage paths for the GPU
version and by nothing for the two CPU versions; no work-group size is passed. -/
theorem barnes_hut_solver_config (fileSystem : Option String) (args : ArgumentsParser)
    (hi : args.getInitializationType ∈ supportedInitializationTypes)
    (hv : args.getVersion ∈ barnesHutVersions)
    (hfs : args.getVersion ∈ gpuVersions → (getFileDir fileSystem).isSome) :
    ∃ solver,
      solversMade (main fileSystem args) = [solver] ∧
      solver.valueArgs =
        [.scalar args.getTimeStep, .scalar args.getSquaredSoftening,
         .count args.getNumParticles] ∧
      solver.args = solver.valueArgs ++ solver.stagePaths.map CtorArg.path ∧
      (args.getVersion = .BARNES_HUT_GPU_PARALLEL →
        solver.stagePaths.length = 2 ∧
        ∀ dir, getFileDir fileSystem = some dir →
          solver.stagePaths =
            [dir ++ "../shaders/ComputeShaders/updateParticles.glsl",
             dir ++ "../shaders/ComputeShaders/forceCalcuBarnesHut.glsl"]) ∧
      (args.getVersion ≠ .BARNES_HUT_GPU_PARALLEL → solver.stagePaths = []) ∧
      solver.args.length = 3 + solver.stagePaths.length ∧
      solver.timeStep = some args.getTimeStep ∧
      solver.squaredSoftening = some args.getSquaredSoftening ∧
      solver.numParticles = some args.getNumParticles ∧
      solver.workGroupSize = none := by
  have hv2 : args.getVersion ∈ supportedVersions := by
    revert hv
    simp only [barnesHutVersions, supportedVersions, List.mem_cons, List.mem_singleton,
      List.not_mem_nil, or_false]
    tauto
  obtain ⟨init, hinit⟩ := initializerSwitch_ok args args.getFilePath hi
  obtain ⟨solver, hs⟩ := versionSwitch_some fileSystem args (some init) hv2 hfs
  refine ⟨solver, by rw [main_trace_of_ok fileSystem args init solver hinit hs]; rfl, ?_⟩
  simp only [barnesHutVersions, List.mem_cons, List.mem_singleton, List.not_mem_nil,
    or_false] at hv
  cases fileSystem <;> rcases hv with h | h | h
  all_goals
    first
      | (simp only [versionSwitch, h, getFileDir, Option.some.injEq] at hs
         have hs := makeSimulation_inj _ _ _ hs
         subst hs
         first
           | exact ⟨rfl, rfl, fun h2 => absurd (h.symm.trans h2) (by decide), fun _ => rfl,
               rfl, rfl, rfl, rfl, rfl⟩
           | exact ⟨rfl, rfl,
               fun _ => ⟨rfl, fun dir hdir => by
                 simp only [getFileDir, Option.some.injEq] at hdir
                 subst hdir
                 rfl⟩,
               fun h2 => absurd h h2, rfl, rfl, rfl, rfl, rfl⟩)
      | simp only [versionSwitch, h, getFileDir, reduceCtorEq] at hs

/-- Witness for the amended C7 at the Barnes-Hut GPU version. -/
theorem barnes_hut_solver_config_witness :
    ({ sampleArgs with getVersion := .BARNES_HUT_GPU_PARALLEL } :
      ArgumentsParser).getInitializationType ∈ supportedInitializationTypes ∧
    ({ sampleArgs with getVersion := .BARNES_HUT_GPU_PARALLEL } :
      ArgumentsParser).getVersion ∈ barnesHutVersions ∧
    (Version.BARNES_HUT_GPU_PARALLEL ∈ gpuVersions → (getFileDir (some "/repo/src")).isSome) ∧
    ∃ solver,
      solversMade (main (some "/repo/src")
        { sampleArgs with getVersion := .BARNES_HUT_GPU_PARALLEL }) = [solver] ∧
      solver.valueArgs = [.scalar (1 / 100), .scalar (1 / 1000), .count 1000] ∧
      solver.args = solver.valueArgs ++ solver.stagePaths.map CtorArg.path ∧
      (Version.BARNES_HUT_GPU_PARALLEL = .BARNES_HUT_GPU_PARALLEL →
        solver.stagePaths.length = 2 ∧
        ∀ dir, getFileDir (some "/repo/src") = some dir →
          solver.stagePaths =
            [dir ++ "../shaders/ComputeShaders/updateParticles.glsl",
             dir ++ "../shaders/ComputeShaders/forceCalcuBarnesHut.glsl"]) ∧
      (Version.BARNES_HUT_GPU_PARALLEL ≠ .BARNES_HUT_GPU_PARALLEL → solver.stagePaths = []) ∧
      solver.args.length = 3 + solver.stagePaths.length ∧
      solver.timeStep = some (1 / 100) ∧
      solver.squaredSoftening = some (1 / 1000) ∧
      solver.numParticles = some 1000 ∧
      solver.workGroupSize = none :=
  ⟨by decide, by decide, fun _ => rfl,
   barnes_hut_solver_config (some "/repo/src")
     { sampleArgs with getVersion := .BARNES_HUT_GPU_PARALLEL } (by decide) (by decide)
     (fun _ => rfl)⟩

/-- C8: when the initialization type is one of the seven, `main` makes exactly one
initializer, of the class the type names; its only argument is `args.getNumParticles()`
for the five generated layouts, it has no argument for `LAGRANGE`, and its only argument
is `args.getFilePath()` for `SYSTEM_FILE`; the same initializer is made whichever of the
seven versions is selected, and for each of them, when `getFileDir()` returns if the
version's `case` calls it, the one `ParticleSimulation` made holds that initializer (a
non-null pointer). -/
theorem initializer_matches_type (fileSystem : Option String) (args : ArgumentsParser)
    (hi : args.getInitializationType ∈ supportedInitializationTypes) :
    ∃ init,
      initializersMade (main fileSystem args) = [init] ∧
      namedInitializerClass args.getInitializationType = some init.cls ∧
      (args.getInitializationType ∈ generatedLayouts →
        init.args = [.count args.getNumParticles]) ∧
      (args.getInitializationType = .LAGRANGE → init.args = []) ∧
      (args.getInitializationType = .SYSTEM_FILE → init.args = [.path args.getFilePath]) ∧
      (∀ v ∈ supportedVersions,
        initializersMade (main fileSystem { args with getVersion := v }) = [init] ∧
        ((v ∈ gpuVersions → (getFileDir fileSystem).isSome) →
          ∃ sim,
            simulationsMade (main fileSystem { args with getVersion := v }) = [sim] ∧
            sim.particleSystemInitializer = some init)) := by
  obtain ⟨init, hinit⟩ := initializerSwitch_ok args args.getFilePath hi
  have hmade : ∀ a : ArgumentsParser, initializerSwitch a a.getFilePath = .ok init →
      initializersMade (main fileSystem a) = [init] := by
    intro a ha
    rw [main_trace_of_init fileSystem a init ha]
    obtain ⟨i, v, n, dt, eps, f⟩ := a
    cases fileSystem <;> cases v <;> rfl
  refine ⟨init, hmade args hinit, ?_, ?_, ?_, ?_, ?_⟩
  · simp only [supportedInitializationTypes, List.mem_cons, List.mem_singleton,
      List.not_mem_nil, or_false] at hi
    rcases hi with h | h | h | h | h | h | h
    all_goals
      simp only [initializerSwitch, h, Except.ok.injEq] at hinit
      subst hinit
      rw [h]
      rfl
  · intro hg
    simp only [generatedLayouts, List.mem_cons, List.mem_singleton, List.not_mem_nil,
      or_false] at hg
    rcases hg with h | h | h | h | h
    all_goals
      simp only [initializerSwitch, h, Except.ok.injEq] at hinit
      subst hinit
      rfl
  · intro h
    simp only [initializerSwitch, h, Except.ok.injEq] at hinit
    subst hinit
    rfl
  · intro h
    simp only [initializerSwitch, h, Except.ok.injEq] at hinit
    subst hinit
    rfl
  · intro v hv
    have hinit2 : initializerSwitch { args with getVersion := v }
        ({ args with getVersion := v } : ArgumentsParser).getFilePath = .ok init := hinit
    refine ⟨hmade _ hinit2, fun hfs => ?_⟩
    obtain ⟨solver, hs⟩ :=
      versionSwitch_some fileSystem { args with getVersion := v } (some init) hv hfs
    refine ⟨⟨some init, solver, worldDimensions, windowDim⟩, ?_, rfl⟩
    rw [main_trace_of_ok fileSystem _ init solver hinit2 hs]
    rfl

/-- Witness for C8 at the file layout. -/
theorem initializer_matches_type_witness :
    ({ sampleArgs with getInitializationType := .SYSTEM_FILE, getFilePath := "bodies.txt" } :
      ArgumentsParser).getInitializationType ∈ supportedInitializationTypes ∧
    ∃ init,
      initializersMade (main (some "/repo/src")
        { sampleArgs with getInitializationType := .SYSTEM_FILE, getFilePath := "bodies.txt" })
        = [init] ∧
      namedInitializerClass .SYSTEM_FILE = some init.cls ∧
      (InitializationType.SYSTEM_FILE ∈ generatedLayouts → init.args = [.count 1000]) ∧
      (InitializationType.SYSTEM_FILE = .LAGRANGE → init.args = []) ∧
      (InitializationType.SYSTEM_FILE = .SYSTEM_FILE → init.args = [.path "bodies.txt"]) ∧
      (∀ v ∈ supportedVersions,
        initializersMade (main (some "/repo/src")
          { sampleArgs with getInitializationType := .SYSTEM_FILE, getFilePath := "bodies.txt",
                            getVersion := v }) = [init] ∧
        ((v ∈ gpuVersions → (getFileDir (some "/repo/src")).isSome) →
          ∃ sim,
            simulationsMade (main (some "/repo/src")
              { sampleArgs with getInitializationType := .SYSTEM_FILE,
                                getFilePath := "bodies.txt", getVersion := v }) = [sim] ∧
            sim.particleSystemInitializer = some init)) :=
  ⟨by decide,
   initializer_matches_type (some "/repo/src")
     { sampleArgs with getInitializationType := .SYSTEM_FILE, getFilePath := "bodies.txt" }
     (by decide)⟩

/-- C10: for a Barnes-Hut version whose run reaches the construction (the initialization
types are among the seven and `getFileDir()` returns if the version's `case` calls it),
the particle count given to the solver is `args.getNumParticles()`, and replacing the
initialization type by any other of the seven and the file path by any other string
leaves the solver construction, and so its particle count, unchanged. -/
theorem barnes_hut_particle_count_independent (fileSystem : Option String)
    (args : ArgumentsParser) (otherType : InitializationType) (otherPath : String)
    (hi : args.getInitializationType ∈ supportedInitializationTypes)
    (ho : otherType ∈ supportedInitializationTypes)
    (hv : args.getVersion ∈ barnesHutVersions)
    (hfs : args.getVersion ∈ gpuVersions → (getFileDir fileSystem).isSome) :
    ∃ solver,
      solversMade (main fileSystem args) = [solver] ∧
      solversMade (main fileSystem
        { args with getInitializationType := otherType, getFilePath := otherPath }) = [solver] ∧
      solver.numParticles = some args.getNumParticles := by
  have hv2 : args.getVersion ∈ supportedVersions := by
    revert hv
    simp only [barnesHutVersions, supportedVersions, List.mem_cons, List.mem_singleton,
      List.not_mem_nil, or_false]
    tauto
  obtain ⟨init, hinit⟩ := initializerSwitch_ok args args.getFilePath hi
  obtain ⟨init2, hinit2⟩ := initializerSwitch_ok
    { args with getInitializationType := otherType, getFilePath := otherPath } otherPath ho
  obtain ⟨solver, hs⟩ := versionSwitch_some fileSystem args (some init) hv2 hfs
  obtain ⟨solver2, hs2⟩ := versionSwitch_some fileSystem
    { args with getInitializationType := otherType, getFilePath := otherPath } (some init2)
    hv2 hfs
  simp only [barnesHutVersions, List.mem_cons, List.mem_singleton, List.not_mem_nil,
    or_false] at hv
  have heq : solver2 = solver ∧ solver.numParticles = some args.getNumParticles := by
    cases fileSystem <;> rcases hv with h | h | h
    all_goals
      first
        | (simp only [versionSwitch, h, getFileDir, Option.some.injEq] at hs hs2
           have hs := makeSimulation_inj _ _ _ hs
           have hs2 := makeSimulation_inj _ _ _ hs2
           subst hs
           subst hs2
           exact ⟨rfl, rfl⟩)
        | simp only [versionSwitch, h, getFileDir, reduceCtorEq] at hs
  obtain ⟨h21, hn⟩ := heq
  subst h21
  exact ⟨solver2, by rw [main_trace_of_ok fileSystem args init solver2 hinit hs]; rfl,
    by rw [main_trace_of_ok fileSystem _ init2 solver2 hinit2 hs2]; rfl, hn⟩

/-- Witness for C10: the galaxy layout against the Lagrange layout and a file path. -/
theorem barnes_hut_particle_count_independent_witness :
    ({ sampleArgs with getVersion := .BARNES_HUT_GPU_PARALLEL } :
      ArgumentsParser).getInitializationType ∈ supportedInitializationTypes ∧
    InitializationType.LAGRANGE ∈ supportedInitializationTypes ∧
    ({ sampleArgs with getVersion := .BARNES_HUT_GPU_PARALLEL } :
      ArgumentsParser).getVersion ∈ barnesHutVersions ∧
    (Version.BARNES_HUT_GPU_PARALLEL ∈ gpuVersions → (getFileDir (some "/repo/src")).isSome) ∧
    ∃ solver,
      solversMade (main (some "/repo/src")
        { sampleArgs with getVersion := .BARNES_HUT_GPU_PARALLEL }) = [solver] ∧
      solversMade (main (some "/repo/src")
        { sampleArgs with getVersion := .BARNES_HUT_GPU_PARALLEL,
                          getInitializationType := .LAGRANGE, getFilePath := "bodies.txt" })
        = [solver] ∧
      solver.numParticles = some 1000 :=
  ⟨by decide, by decide, by decide, fun _ => rfl,
   barnes_hut_particle_count_independent (some "/repo/src")
     { sampleArgs with getVersion := .BARNES_HUT_GPU_PARALLEL } .LAGRANGE "bodies.txt"
     (by decide) (by decide) (by decide) (fun _ => rfl)⟩

/-! ## Theorems about the octree builder -/

/-- Replacing one child changes a sum over the children by the difference at that child. -/
theorem sum_update_children {M : Type} [AddCommGroup M] (g : OctreeNode → M)
    (children : Fin 8 → OctreeNode) (k : Fin 8) (t : OctreeNode) :
    ∑ j, g (Function.update children k t j) = (∑ j, g (children j)) + (g t - g (children k)) := by
  have h1 : ∀ j, g (Function.update children k t j) =
      Function.update (fun i => g (children i)) k (g t) j :=
    fun j => Function.apply_update (fun _ => g) children k t j
  simp_rw [h1]
  rw [Finset.sum_update_of_mem (Finset.mem_univ k),
    ← Finset.add_sum_erase Finset.univ (fun j => g (children j)) (Finset.mem_univ k),
    Finset.sdiff_singleton_eq_erase]
  abel

/-- Merging two particles of positive mass keeps the mass-weighted position sum. -/
theorem merge_moment (q p : Particle) (hq : 0 < q.mass) (hp : 0 < p.mass) :
    (q.merge p).mass • (q.merge p).position = q.mass • q.position + p.mass • p.position := by
  have hne : q.mass + p.mass ≠ 0 := by positivity
  simp only [Particle.merge]
  rw [smul_smul, mul_inv_cancel₀ hne, one_smul]

/-- Insertion keeps the depth bound. -/
theorem insert_depthOK (d : ℕ) (t : OctreeNode) (p : Particle) (h : t.DepthOK d) :
    (t.insert d p).DepthOK d := by
  induction d generalizing t p with
  | zero =>
    cases t with
    | empty c e => simp [OctreeNode.insert, OctreeNode.DepthOK]
    | leaf c e q => simp [OctreeNode.insert, OctreeNode.DepthOK]
    | internal c e m com children => simp [OctreeNode.DepthOK] at h
  | succ d ih =>
    cases t with
    | empty c e => simp [OctreeNode.insert, OctreeNode.DepthOK]
    | leaf c e q =>
      simp only [OctreeNode.insert, OctreeNode.DepthOK, Nat.add_sub_cancel]
      refine ⟨Nat.succ_pos d, fun k => ?_⟩
      have hfresh : ∀ j, (Function.update
          (fun k => OctreeNode.empty (childCenter c e k) (e / 2)) (octantOf c q.position)
          (OctreeNode.leaf (childCenter c e (octantOf c q.position)) (e / 2) q) j).DepthOK d := by
        intro j
        by_cases hj : j = octantOf c q.position
        · subst hj; simp [OctreeNode.DepthOK]
        · simp [Function.update_noteq hj, OctreeNode.DepthOK]
      by_cases hk : k = octantOf c p.position
      · subst hk
        rw [Function.update_same]
        exact ih _ _ (hfresh _)
      · rw [Function.update_noteq hk]
        exact hfresh k
    | internal c e m com children =>
      simp only [OctreeNode.DepthOK, Nat.add_sub_cancel] at h
      simp only [OctreeNode.insert, OctreeNode.DepthOK, Nat.add_sub_cancel]
      refine ⟨Nat.succ_pos d, fun k => ?_⟩
      by_cases hk : k = octantOf c p.position
      · subst hk
        rw [Function.update_same]
        exact ih _ _ (h.2 _)
      · rw [Function.update_noteq hk]
        exact h.2 k

/-- Insertion of a particle of positive mass keeps all held masses positive. -/
theorem insert_positiveLeaves (d : ℕ) (t : OctreeNode) (p : Particle)
    (h : t.PositiveLeaves) (hp : 0 < p.mass) : (t.insert d p).PositiveLeaves := by
  induction d generalizing t p with
  | zero =>
    cases t with
    | empty c e => simpa [OctreeNode.insert, OctreeNode.PositiveLeaves] using hp
    | leaf c e q =>
      simp only [OctreeNode.PositiveLeaves] at h
      simp only [OctreeNode.insert, OctreeNode.PositiveLeaves, Particle.merge]
      positivity
    | internal c e m com children => simpa [OctreeNode.insert] using h
  | succ d ih =>
    cases t with
    | empty c e => simpa [OctreeNode.insert, OctreeNode.PositiveLeaves] using hp
    | leaf c e q =>
      simp only [OctreeNode.PositiveLeaves] at h
      simp only [OctreeNode.insert, OctreeNode.PositiveLeaves]
      intro k
      have hfresh : ∀ j, (Function.update
          (fun k => OctreeNode.empty (childCenter c e k) (e / 2)) (octantOf c q.position)
          (OctreeNode.leaf (childCenter c e (octantOf c q.position)) (e / 2) q)
          j).PositiveLeaves := by
        intro j
        by_cases hj : j = octantOf c q.position
        · subst hj; simpa [OctreeNode.PositiveLeaves] using h
        · simp [Function.update_noteq hj, OctreeNode.PositiveLeaves]
      by_cases hk : k = octantOf c p.position
      · subst hk
        rw [Function.update_same]
        exact ih _ _ (hfresh _) hp
      · rw [Function.update_noteq hk]
        exact hfresh k
    | internal c e m com children =>
      simp only [OctreeNode.PositiveLeaves] at h
      simp only [OctreeNode.insert, OctreeNode.PositiveLeaves]
      intro k
      by_cases hk : k = octantOf c p.position
      · subst hk
        rw [Function.update_same]
        exact ih _ _ (h _) hp
      · rw [Function.update_noteq hk]
        exact h k

/-- Insertion adds the particle's mass to the mass held below the node. -/
theorem insert_heldMass (d : ℕ) (t : OctreeNode) (p : Particle) (h : t.DepthOK d) :
    (t.insert d p).heldMass = t.heldMass + p.mass := by
  induction d generalizing t p with
  | zero =>
    cases t with
    | empty c e => simp [OctreeNode.insert, OctreeNode.heldMass]
    | leaf c e q => simp [OctreeNode.insert, OctreeNode.heldMass, Particle.merge]
    | internal c e m com children => simp [OctreeNode.DepthOK] at h
  | succ d ih =>
    cases t with
    | empty c e => simp [OctreeNode.insert, OctreeNode.heldMass]
    | leaf c e q =>
      simp only [OctreeNode.insert, OctreeNode.heldMass]
      rw [sum_update_children, sum_update_children, ih]
      · simp [OctreeNode.heldMass]
      · by_cases hj : octantOf c p.position = octantOf c q.position
        · rw [hj]; simp [OctreeNode.DepthOK]
        · simp [Function.update_noteq hj, OctreeNode.DepthOK]
    | internal c e m com children =>
      simp only [OctreeNode.DepthOK, Nat.add_sub_cancel] at h
      simp only [OctreeNode.insert, OctreeNode.heldMass]
      rw [sum_update_children, ih _ _ (h.2 _)]
      ring

/-- Insertion of a particle of positive mass adds its mass-weighted position to the sum
held below the node. -/
theorem insert_heldMoment (d : ℕ) (t : OctreeNode) (p : Particle) (h : t.DepthOK d)
    (hpos : t.PositiveLeaves) (hp : 0 < p.mass) :
    (t.insert d p).heldMoment = t.heldMoment + p.mass • p.position := by
  induction d generalizing t p with
  | zero =>
    cases t with
    | empty c e => simp [OctreeNode.insert, OctreeNode.heldMoment]
    | leaf c e q =>
      simp only [OctreeNode.PositiveLeaves] at hpos
      simp only [OctreeNode.insert, OctreeNode.heldMoment]
      exact merge_moment q p hpos hp
    | internal c e m com children => simp [OctreeNode.DepthOK] at h
  | succ d ih =>
    cases t with
    | empty c e => simp [OctreeNode.insert, OctreeNode.heldMoment]
    | leaf c e q =>
      simp only [OctreeNode.PositiveLeaves] at hpos
      simp only [OctreeNode.insert, OctreeNode.heldMoment]
      rw [sum_update_children, sum_update_children, ih _ _ _ _ hp]
      · simp [OctreeNode.heldMoment]
      · by_cases hj : octantOf c p.position = octantOf c q.position
        · rw [hj]; simp [OctreeNode.DepthOK]
        · simp [Function.update_noteq hj, OctreeNode.DepthOK]
      · by_cases hj : octantOf c p.position = octantOf c q.position
        · rw [hj]; simpa [OctreeNode.PositiveLeaves] using hpos
        · simp [Function.update_noteq hj, OctreeNode.PositiveLeaves]
    | internal c e m com children =>
      simp only [OctreeNode.DepthOK, Nat.add_sub_cancel] at h
      simp only [OctreeNode.PositiveLeaves] at hpos
      simp only [OctreeNode.insert, OctreeNode.heldMoment]
      rw [sum_update_children, ih _ _ (h.2 _) (hpos _) hp]
      abel

/-- With positive particle masses the mass held below a node is not negative. -/
theorem heldMass_nonneg (t : OctreeNode) (h : t.PositiveLeaves) : 0 ≤ t.heldMass := by
  induction t with
  | empty c e => simp [OctreeNode.heldMass]
  | leaf c e q => exact le_of_lt h
  | internal c e m com children ih =>
    simp only [OctreeNode.heldMass]
    exact Finset.sum_nonneg fun k _ => ih k (h k)

/-- With positive particle masses a node that holds no mass holds no particle, so its
mass-weighted position sum is zero. -/
theorem heldMoment_eq_zero (t : OctreeNode) (h : t.PositiveLeaves) (h0 : t.heldMass = 0) :
    t.heldMoment = 0 := by
  induction t with
  | empty c e => simp [OctreeNode.heldMoment]
  | leaf c e q =>
    simp only [OctreeNode.PositiveLeaves] at h
    simp only [OctreeNode.heldMass] at h0
    exact absurd h0 (ne_of_gt h)
  | internal c e m com children ih =>
    simp only [OctreeNode.heldMass] at h0
    simp only [OctreeNode.heldMoment]
    have hz := (Finset.sum_eq_zero_iff_of_nonneg
      (fun k _ => heldMass_nonneg (children k) (h k))).1 h0
    exact Finset.sum_eq_zero fun k hk => ih k (h k) (hz k hk)

/-- After the bottom-up pass a node's aggregate mass is the mass held below it. -/
theorem aggregate_mass (t : OctreeNode) : t.aggregate.mass = t.heldMass := by
  induction t with
  | empty c e => rfl
  | leaf c e q => rfl
  | internal c e m com children ih =>
    simp only [OctreeNode.aggregate, OctreeNode.mass, OctreeNode.heldMass]
    exact Finset.sum_congr rfl fun k _ => ih k

/-- After the bottom-up pass a node's center of mass is the mass-weighted average of the
positions held below it. -/
theorem aggregate_centerOfMass (t : OctreeNode) (h : t.PositiveLeaves) :
    t.aggregate.centerOfMass = t.heldMass⁻¹ • t.heldMoment := by
  induction t with
  | empty c e => simp [OctreeNode.aggregate, OctreeNode.centerOfMass, OctreeNode.heldMoment]
  | leaf c e q =>
    simp only [OctreeNode.PositiveLeaves] at h
    simp only [OctreeNode.aggregate, OctreeNode.centerOfMass, OctreeNode.heldMass,
      OctreeNode.heldMoment]
    rw [smul_smul, inv_mul_cancel₀ (ne_of_gt h), one_smul]
  | internal c e m com children ih =>
    show (∑ k, (children k).aggregate.mass)⁻¹ •
        ∑ k, (children k).aggregate.mass • (children k).aggregate.centerOfMass =
      (∑ k, (children k).heldMass)⁻¹ • ∑ k, (children k).heldMoment
    have hm : ∀ k, (children k).aggregate.mass • (children k).aggregate.centerOfMass =
        (children k).heldMoment := by
      intro k
      rw [aggregate_mass, ih k (h k)]
      by_cases h0 : (children k).heldMass = 0
      · rw [h0, zero_smul, heldMoment_eq_zero _ (h k) h0]
      · rw [smul_smul, mul_inv_cancel₀ h0, one_smul]
    simp only [hm]
    simp only [aggregate_mass]

/-- Inserting a buffer, particle by particle, adds its total mass to what the root holds
and keeps the depth bound. -/
theorem foldl_insert_heldMass (maxDepth : ℕ) (buffer : List Particle) (root : OctreeNode)
    (hd : root.DepthOK maxDepth) :
    (buffer.foldl (fun (t : OctreeNode) p => t.insert maxDepth p) root).heldMass =
      root.heldMass + totalMass buffer := by
  induction buffer generalizing root with
  | nil => simp [totalMass]
  | cons p rest ih =>
    rw [List.foldl_cons, ih (root.insert maxDepth p) (insert_depthOK maxDepth root p hd),
      insert_heldMass maxDepth root p hd]
    simp only [totalMass, List.map_cons, List.sum_cons]
    ring

/-- Inserting a buffer of positive masses, particle by particle, adds its total
mass-weighted position to what the root holds and keeps all held masses positive. -/
theorem foldl_insert_heldMoment (maxDepth : ℕ) (buffer : List Particle) (root : OctreeNode)
    (hd : root.DepthOK maxDepth) (hr : root.PositiveLeaves)
    (hpos : ∀ p ∈ buffer, 0 < p.mass) :
    (buffer.foldl (fun (t : OctreeNode) p => t.insert maxDepth p) root).PositiveLeaves ∧
    (buffer.foldl (fun (t : OctreeNode) p => t.insert maxDepth p) root).heldMoment =
      root.heldMoment + totalMoment buffer := by
  induction buffer generalizing root with
  | nil => simpa [totalMoment] using hr
  | cons p rest ih =>
    have hp : 0 < p.mass := hpos p (List.mem_cons_self p rest)
    have hrest : ∀ q ∈ rest, 0 < q.mass := fun q hq => hpos q (List.mem_cons_of_mem p hq)
    obtain ⟨h1, h3⟩ := ih (root.insert maxDepth p) (insert_depthOK maxDepth root p hd)
      (insert_positiveLeaves maxDepth root p hr hp) hrest
    refine ⟨h1, ?_⟩
    rw [List.foldl_cons, h3, insert_heldMoment maxDepth root p hd hr hp]
    simp only [totalMoment, List.map_cons, List.sum_cons]
    abel

/-- C9: for every particle buffer, every depth bound and every bounding cube, the root of
the built octree has as aggregate mass the sum of all particle masses; and when the
masses are positive, as the data model requires, its center of mass is the sum of the
mass-weighted particle positions divided by the sum of the masses. -/
theorem root_aggregates_whole_buffer (maxDepth : ℕ) (center : Vec3) (halfExtent : ℚ)
    (buffer : List Particle) :
    (buildOctree maxDepth center halfExtent buffer).mass = totalMass buffer ∧
    ((∀ p ∈ buffer, 0 < p.mass) →
      (buildOctree maxDepth center halfExtent buffer).centerOfMass =
        (totalMass buffer)⁻¹ • totalMoment buffer) := by
  have h2 := foldl_insert_heldMass maxDepth buffer (.empty center halfExtent)
    (by simp [OctreeNode.DepthOK])
  simp only [OctreeNode.heldMass, zero_add] at h2
  refine ⟨by rw [buildOctree, aggregate_mass, h2], fun hpos => ?_⟩
  obtain ⟨h1, h3⟩ := foldl_insert_heldMoment maxDepth buffer (.empty center halfExtent)
    (by simp [OctreeNode.DepthOK]) (by simp [OctreeNode.PositiveLeaves]) hpos
  simp only [OctreeNode.heldMoment, zero_add] at h3
  rw [buildOctree, aggregate_centerOfMass _ h1, h2, h3]

/-- Witness for C9 at the sample buffer, depth bound 3 and the cube of half-extent 4 around
the origin. -/
theorem root_aggregates_whole_buffer_witness :
    (∀ p ∈ sampleBuffer, 0 < p.mass) ∧
    (buildOctree 3 (0, 0, 0) 4 sampleBuffer).mass = totalMass sampleBuffer ∧
    (buildOctree 3 (0, 0, 0) 4 sampleBuffer).centerOfMass =
      (totalMass sampleBuffer)⁻¹ • totalMoment sampleBuffer :=
  ⟨by simp [sampleBuffer],
   (root_aggregates_whole_buffer 3 (0, 0, 0) 4 sampleBuffer).1,
   (root_aggregates_whole_buffer 3 (0, 0, 0) 4 sampleBuffer).2 (by simp [sampleBuffer])⟩

end NBody
